import Mathlib

/-!
Shallow embedding of the `@reactit/auth` token-lifecycle provider.

Time is modelled as a natural number of milliseconds (the JavaScript epoch
clock `Date.now()`); the current instant `now` is passed explicitly to every
function that reads the clock.  JavaScript truthiness is modelled explicitly
where the source relies on it: an optional number is falsy when absent or
zero, an optional string is falsy when absent or empty, and user payloads
carry their own truthiness bit because the user type is generic in the
source.  Asynchronous external callbacks are modelled by passing their
outcome (`Except String α`) as an argument; the state threaded through each
operation is the store state the functional `setState` updater would read at
commit time.
-/

namespace ReactitAuth

abbrev Token := String

/-- Embeds `TokenBundle` from `token.ts`: a token string plus an optional
absolute UNIX expiration instant. -/
structure TokenBundle where
  token : Token
  expiresAt : Option Nat
deriving DecidableEq, Repr

/-- Embeds the `number | Date | undefined` expiration input accepted by
`coerceExpiration`: a plain number (seconds from now), a `Date` (absolute
instant), or absent. -/
inductive ExpInput where
  | rel (seconds : Nat)
  | abs (instant : Nat)
  | none
deriving DecidableEq, Repr

/-- Embeds `coerceExpiration` from `token.ts`: a number becomes
`Date.now() + exp * 1000`, a `Date` passes through as its instant, absence
stays absent.  (The remaining source branch throws on shapes that the
`ExpInput` type cannot represent, so it has no counterpart here.) -/
def coerceExpiration (now : Nat) : ExpInput → Option Nat
  | ExpInput.rel s => some (now + s * 1000)
  | ExpInput.abs d => some d
  | ExpInput.none => Option.none

/-- Embeds `isTokenBundleValid` from `token.ts`:
`!!bundle.token && (!bundle.expiresAt || bundle.expiresAt >= Date.now())`.
Note that `!bundle.expiresAt` is JavaScript truthiness: it is `true` both
when `expiresAt` is absent and when it equals `0`. -/
def isTokenBundleValid (now : Nat) (b : TokenBundle) : Bool :=
  (!(b.token == "")) &&
    (match b.expiresAt with
     | Option.none => true
     | some e => (e == 0) || decide (e ≥ now))

/-- Generic user payload.  The source treats the user type `U` opaquely
except for JavaScript truthiness tests (`res.user ? res.user : _state.user`),
so a user value is modelled as an identity together with its truthiness. -/
structure JsUser where
  truthy : Bool
  val : Nat
deriving DecidableEq, Repr

/-- Embeds `AuthState<U>` from `types.ts`. -/
structure AuthState where
  initialized : Bool
  auth : Option TokenBundle
  renew : Option TokenBundle
  user : Option JsUser
deriving DecidableEq, Repr

/-- Embeds `AuthActionResult<U>` from `types.ts`. -/
structure AuthActionResult where
  token : Token
  tokenExpiration : ExpInput
  renew : Option Token
  renewExpiration : ExpInput
  user : Option JsUser
deriving DecidableEq, Repr

/-- JavaScript truthiness of an optional string (falsy when absent or
empty). -/
def optTokenTruthy : Option Token → Bool
  | some t => !(t == "")
  | Option.none => false

/-- JavaScript truthiness of an optional user value. -/
def optUserTruthy : Option JsUser → Bool
  | some u => u.truthy
  | Option.none => false

/-- Static configuration of the `AuthProvider` component, as far as the
claims need it: whether each behaviour callback is supplied, the development
token and user, and the `renewOnMount` flag.  The behaviour of a configured
callback is supplied per call as an `Except String` outcome. -/
structure AuthConfig where
  devToken : Option Token
  devUser : Option JsUser
  doSignIn : Bool
  doRenew : Bool
  doSignOut : Bool
  renewOnMount : Bool
deriving DecidableEq, Repr

/-- Errors an operation can surface: the two configuration errors thrown by
the provider itself, or a rejection coming from an external callback. -/
inductive AuthError where
  | noSignInHandler
  | noRenewHandler
  | callback (e : String)
deriving DecidableEq, Repr

/-- Embeds `processExit` from `provider.tsx`: `setState({ initialized: true })`. -/
def processExit : AuthState :=
  { initialized := true, auth := Option.none, renew := Option.none, user := Option.none }

/-- Embeds `processResult` from `provider.tsx`.  The source commits through a
functional updater `setState(_state => ...)`, so `latest` is the store state
at commit time, not a snapshot captured before the awaited callback.  The
conditionals `res.renew ? ... : _state.renew` and
`res.user ? res.user : _state.user` are JavaScript truthiness tests. -/
def processResult (now : Nat) (res : AuthActionResult) (latest : AuthState) : AuthState :=
  { initialized := true
  , auth := some { token := res.token, expiresAt := coerceExpiration now res.tokenExpiration }
  , renew :=
      match res.renew with
      | some r =>
          if r == "" then latest.renew
          else some { token := r, expiresAt := coerceExpiration now res.renewExpiration }
      | Option.none => latest.renew
  , user :=
      match res.user with
      | some u => if u.truthy then some u else latest.user
      | Option.none => latest.user }

/-- Synthetic development sign-in result: `{ ...lastDev.current,
tokenExpiration: undefined }` where `lastDev.current = { token: devToken,
user: devUser }`; present exactly when the development token is truthy. -/
def devResult (cfg : AuthConfig) : Option AuthActionResult :=
  match cfg.devToken with
  | some t =>
      if t == "" then Option.none
      else some { token := t, tokenExpiration := ExpInput.none
                , renew := Option.none, renewExpiration := ExpInput.none
                , user := cfg.devUser }
  | Option.none => Option.none

/-- Embeds `signInAsync` from `provider.tsx`: development short-circuit,
otherwise the configured `doSignIn` callback (whose settled outcome is the
`outcome` argument), otherwise the no-sign-in-handler error. -/
def signInAsync (cfg : AuthConfig) (outcome : Except String AuthActionResult)
    (now : Nat) (latest : AuthState) : AuthState × Except AuthError AuthActionResult :=
  match devResult cfg with
  | some res => (processResult now res latest, Except.ok res)
  | Option.none =>
      if cfg.doSignIn then
        match outcome with
        | Except.ok res => (processResult now res latest, Except.ok res)
        | Except.error e => (latest, Except.error (AuthError.callback e))
      else (latest, Except.error AuthError.noSignInHandler)

/-- Embeds `renewTokenAsync` from `provider.tsx`: throws the
no-renew-handler error when `doRenew` is not configured, otherwise awaits
`doRenew` and on success commits `processResult`; a rejection propagates and
leaves the state untouched. -/
def renewTokenAsync (cfg : AuthConfig) (outcome : Except String AuthActionResult)
    (now : Nat) (latest : AuthState) : AuthState × Except AuthError AuthActionResult :=
  if cfg.doRenew then
    match outcome with
    | Except.ok res => (processResult now res latest, Except.ok res)
    | Except.error e => (latest, Except.error (AuthError.callback e))
  else (latest, Except.error AuthError.noRenewHandler)

/-- Embeds `signOutAsync` from `provider.tsx`: when `doSignOut` is
configured it is awaited inside `try { ... } catch (e) {}`, so its outcome
is discarded either way; then `processExit()` runs. -/
def signOutAsync (cfg : AuthConfig) (outcome : Except String Unit)
    (_latest : AuthState) : AuthState × Except AuthError Unit :=
  if cfg.doSignOut then
    match outcome with
    | Except.ok _ => (processExit, Except.ok ())
    | Except.error _ => (processExit, Except.ok ())
  else (processExit, Except.ok ())

/-- Embeds the `setAuth: processResult` entry of the provider context:
the result-processing routine applied directly, with no callback. -/
def setAuth (now : Nat) (res : AuthActionResult) (latest : AuthState) : AuthState :=
  processResult now res latest

/-- Embeds `authInv = state.auth && !isTokenBundleValid(state.auth)` as a
boolean: falsy when `auth` is absent. -/
def reconcileAuthInv (now : Nat) (s : AuthState) : Bool :=
  match s.auth with
  | some b => !(isTokenBundleValid now b)
  | Option.none => false

/-- Embeds `renewInv = state.renew && !isTokenBundleValid(state.renew)`. -/
def reconcileRenewInv (now : Nat) (s : AuthState) : Bool :=
  match s.renew with
  | some b => !(isTokenBundleValid now b)
  | Option.none => false

/-- Embeds the guarded commit of the reconciliation effect:
`if (isFirst.current || authInv || renewInv) setState({...state,
initialized: true, auth: authInv ? undefined : state.auth,
renew: renewInv ? undefined : state.renew})`; otherwise the state is left
as it is. -/
def reconcileCommit (isFirst authInv renewInv : Bool) (s : AuthState) : AuthState :=
  if isFirst || authInv || renewInv then
    { initialized := true
    , auth := if authInv then Option.none else s.auth
    , renew := if renewInv then Option.none else s.renew
    , user := s.user }
  else s

/-- Result of one reconciliation pass: the state it leaves behind, the value
of the `isFirst` ref after the pass, and whether `renewTokenAsync` was
called. -/
structure ReconcileOut where
  state : AuthState
  isFirstAfter : Bool
  renewAttempted : Bool
deriving DecidableEq, Repr

/-- Embeds the `useAsyncEffect` reconciliation body of `provider.tsx`.  When
`(isFirst.current && renewOnMount) || !state.auth || authInv` holds it tries
`renewTokenAsync(undefined)` (outcome of the `doRenew` callback supplied as
`o`); a successful renewal returns early, before `isFirst.current = false`,
so `isFirstAfter` stays `isFirst` on that path. -/
def reconcilePass (cfg : AuthConfig) (o : Except String AuthActionResult)
    (isFirst : Bool) (now : Nat) (s : AuthState) : ReconcileOut :=
  let authInv := reconcileAuthInv now s
  let renewInv := reconcileRenewInv now s
  if (isFirst && cfg.renewOnMount) || s.auth.isNone || authInv then
    match renewTokenAsync cfg o now s with
    | (s1, Except.ok _) =>
        { state := s1, isFirstAfter := isFirst, renewAttempted := true }
    | (_, Except.error _) =>
        { state := reconcileCommit isFirst authInv renewInv s
        , isFirstAfter := false, renewAttempted := true }
  else
    { state := reconcileCommit isFirst authInv renewInv s
    , isFirstAfter := false, renewAttempted := false }

/-- Embeds the auth-expiration scheduled effect: `try { await
renewTokenAsync(undefined) } catch (e) { setState({...state, auth:
undefined}) }`. -/
def authExpireFire (cfg : AuthConfig) (o : Except String AuthActionResult)
    (now : Nat) (s : AuthState) : AuthState :=
  match renewTokenAsync cfg o now s with
  | (s1, Except.ok _) => s1
  | (_, Except.error _) => { s with auth := Option.none }

/-- Embeds the renew-expiration scheduled effect:
`setState({...state, renew: undefined})`. -/
def renewExpireFire (s : AuthState) : AuthState :=
  { s with renew := Option.none }

/-- One state-mutating occurrence in the provider: a user action, a
reconciliation pass, or an expiration timer firing, with the callback
outcomes and clock it observes. -/
inductive Op where
  | signIn (o : Except String AuthActionResult) (now : Nat)
  | renew (o : Except String AuthActionResult) (now : Nat)
  | signOut (o : Except String Unit)
  | setAuthOp (now : Nat) (res : AuthActionResult)
  | reconcile (o : Except String AuthActionResult) (isFirst : Bool) (now : Nat)
  | authTimer (o : Except String AuthActionResult) (now : Nat)
  | renewTimer
deriving Repr

/-- State left behind by one occurrence (for failed operations this is the
unchanged input state, matching the source where no `setState` runs). -/
def applyOp (cfg : AuthConfig) (s : AuthState) : Op → AuthState
  | Op.signIn o now => (signInAsync cfg o now s).1
  | Op.renew o now => (renewTokenAsync cfg o now s).1
  | Op.signOut o => (signOutAsync cfg o s).1
  | Op.setAuthOp now res => setAuth now res s
  | Op.reconcile o isFirst now => (reconcilePass cfg o isFirst now s).state
  | Op.authTimer o now => authExpireFire cfg o now s
  | Op.renewTimer => renewExpireFire s

/-- Fold a sequence of occurrences over a starting state. -/
def applyOps (cfg : AuthConfig) (s : AuthState) (ops : List Op) : AuthState :=
  ops.foldl (applyOp cfg) s

/-- Modelled from the spec: the single-flight executor behind
`useSharedPromise`, which comes from the external `@reactit/hooks` package
and is not part of this repository's sources.  Per the spec
(SingleFlightExecutor, §4.3): if no invocation is in flight for the
operation, the function is invoked and its promise tracked until it
settles; if one is in flight, the existing promise is returned unchanged and
the function is not invoked.  Promises are modelled by identifiers; the
state also counts how many times the underlying function was invoked. -/
structure SharedPromiseState where
  inflight : Option Nat
  nextId : Nat
  invocations : Nat
deriving DecidableEq, Repr

/-- Modelled from the spec: one caller entering `run`, returning the promise
identifier handed to that caller. -/
def sharedRun (s : SharedPromiseState) : SharedPromiseState × Nat :=
  match s.inflight with
  | some p => (s, p)
  | Option.none =>
      ({ inflight := some s.nextId, nextId := s.nextId + 1
       , invocations := s.invocations + 1 }, s.nextId)

/-- Modelled from the spec: `k` further callers entering `run`, none of the
promises settling in between; returns the promise handed to each caller in
order. -/
def sharedRunMany : Nat → SharedPromiseState → SharedPromiseState × List Nat
  | 0, s => (s, [])
  | k + 1, s =>
      let r1 := sharedRun s
      let rk := sharedRunMany k r1.1
      (rk.1, r1.2 :: rk.2)

/-- Modelled from the spec: settlement (success or failure) of the tracked
promise clears it. -/
def sharedSettle (s : SharedPromiseState) : SharedPromiseState :=
  { s with inflight := Option.none }

/-- Resolved token of a state: `state.auth?.token`. -/
def tokenOf (s : AuthState) : Option Token :=
  s.auth.map TokenBundle.token

/-- JavaScript truthiness of `state.auth?.token`: the auth bundle is present
and its token is non-empty. -/
def stateTokenTruthy (s : AuthState) : Bool :=
  match s.auth with
  | some b => !(b.token == "")
  | Option.none => false

/-- Embeds the `onTokenChange` wiring of `provider.tsx` over a sequence of
rendered states.  Each render first evaluates the render-body block
`if (onTokenChange && state.auth?.token && !mounted.current) { mounted.current
= true; onTokenChange(state, state.auth.token) }`, then its
`useEffect(..., [state.auth?.token])`, which fires on the first render and
afterwards exactly when the dependency differs from the previous render's
(the effect body returns early when `onTokenChange` is absent).  `mounted`
is the ref value entering the render; `prev` is the previous render's
dependency value, absent on the first render. -/
def rendersNotify (hasCb : Bool) : Bool → Option (Option Token) → List AuthState →
    List (Option Token)
  | _, _, [] => []
  | mounted, prev, s :: rest =>
      let syncFire := hasCb && stateTokenTruthy s && !mounted
      let effFire :=
        match prev with
        | Option.none => hasCb
        | some p => if tokenOf s = p then false else hasCb
      (if syncFire then [tokenOf s] else []) ++
        (if effFire then [tokenOf s] else []) ++
          rendersNotify hasCb (mounted || syncFire) (some (tokenOf s)) rest

/-- Notification sequence produced by a mounted provider across the given
successive rendered states (head is the loaded state). -/
def notifSeq (hasCb : Bool) (states : List AuthState) : List (Option Token) :=
  rendersNotify hasCb false Option.none states

/-- One entry per change of the token value relative to `prev` (the claim's
"once per change of the resolved token string"). -/
def changesOnly : Option Token → List (Option Token) → List (Option Token)
  | _, [] => []
  | prev, t :: rest =>
      if t = prev then changesOnly t rest else t :: changesOnly t rest

/-- Notification sequence as claim C5 words it: one synchronous call when the
loaded state is already authenticated, then exactly one call per change of
the resolved token string, and nothing else. -/
def claimNotifSeq (hasCb : Bool) (states : List AuthState) : List (Option Token) :=
  match states with
  | [] => []
  | s0 :: rest =>
      (if hasCb && stateTokenTruthy s0 then [tokenOf s0] else []) ++
        (if hasCb then changesOnly (tokenOf s0) (rest.map tokenOf) else [])

/-- Duplicates the first truthy token of a notification list (used to state
what the code actually emits: the render-body call fires once, at the first
render whose token is truthy, immediately before that render's effect
call). -/
def dupFirstTruthy : List (Option Token) → List (Option Token)
  | [] => []
  | t :: rest =>
      if optTokenTruthy t then t :: t :: rest else t :: dupFirstTruthy rest

/-- Embeds `isAuthenticated: !!auth` from `useAuth` in `hooks.ts`. -/
def isAuthenticated (s : AuthState) : Bool :=
  s.auth.isSome

/-- Embeds `isRenewEnabled: !!renew` from `useAuth` in `hooks.ts`. -/
def isRenewEnabled (s : AuthState) : Bool :=
  s.renew.isSome

/-- Embeds the rendering condition of `AuthGuard` in `guard.tsx`:
`auth && showAuth || !auth && showUnAuth` where `auth =
useIsAuthenticated()`. -/
def authGuardShows (showAuth showUnAuth : Bool) (s : AuthState) : Bool :=
  (isAuthenticated s && showAuth) || (!(isAuthenticated s) && showUnAuth)

/-- Result-processing routine as claim C4 words it, for comparison with
`processResult`: identical except that the user field is merged with the
nullish-coalescing rule `user = result.user ?? previous user`. -/
def claimProcessResult (now : Nat) (res : AuthActionResult) (prev : AuthState) : AuthState :=
  { initialized := true
  , auth := some { token := res.token, expiresAt := coerceExpiration now res.tokenExpiration }
  , renew :=
      match res.renew with
      | some r =>
          if r == "" then prev.renew
          else some { token := r, expiresAt := coerceExpiration now res.renewExpiration }
      | Option.none => prev.renew
  , user :=
      match res.user with
      | some u => some u
      | Option.none => prev.user }

/-- Bundle validity as claim C9 words it, for comparison with
`isTokenBundleValid`: true iff the token is non-empty and there is no
`expiresAt` or `expiresAt >= now`. -/
def claimIsValid (now : Nat) (b : TokenBundle) : Bool :=
  (!(b.token == "")) &&
    (match b.expiresAt with
     | Option.none => true
     | some e => decide (e ≥ now))

theorem devResult_eq_none_iff (cfg : AuthConfig) :
    devResult cfg = Option.none ↔ optTokenTruthy cfg.devToken = false := by
  cases h : cfg.devToken with
  | none => simp [devResult, optTokenTruthy, h]
  | some t =>
      simp only [devResult, optTokenTruthy, h]
      by_cases ht : t = "" <;> simp [ht]

/-- C1: for every configuration and prior state, `signOutAsync` leaves the
state equal to `{initialized: true}` with `auth`, `renew` and `user` absent,
and never surfaces an error to the caller, even when a configured
`doSignOut` callback rejects (the rejection is swallowed). -/
theorem signOutAsync_always_clears (cfg : AuthConfig) (o : Except String Unit)
    (s : AuthState) :
    signOutAsync cfg o s =
      ({ initialized := true, auth := Option.none, renew := Option.none, user := Option.none },
        Except.ok ()) := by
  cases h : cfg.doSignOut <;> cases o <;> simp [signOutAsync, processExit, h]

/-- C9 counterexample: the bundle `{token: "a", expiresAt: 0}` has a
non-empty token and an `expiresAt` that exists and is strictly in the past
at `now = 1000`, so the claim says it is invalid; but `isTokenBundleValid`
returns `true`, because `!bundle.expiresAt` treats the number `0` as falsy
and therefore as "no expiration". -/
theorem isTokenBundleValid_zero_expiry_cex :
    isTokenBundleValid 1000 { token := "a", expiresAt := some 0 } = true ∧
      claimIsValid 1000 { token := "a", expiresAt := some 0 } = false ∧
      (0 : Nat) < 1000 := by decide

/-- C9 amended: `isTokenBundleValid` returns false iff the token is empty,
or `expiresAt` exists, is nonzero, and is strictly in the past; a zero
`expiresAt` is treated like an absent one because `0` is falsy in
JavaScript. -/
theorem isTokenBundleValid_false_iff (now : Nat) (b : TokenBundle) :
    isTokenBundleValid now b = false ↔
      b.token = "" ∨ ∃ e, b.expiresAt = some e ∧ e ≠ 0 ∧ e < now := by
  rcases b with ⟨t, _ | e⟩
  · simp [isTokenBundleValid]
  · simp only [isTokenBundleValid, Bool.and_eq_false_iff, Bool.not_eq_false',
      Bool.or_eq_false_iff, beq_iff_eq, beq_eq_false_iff_ne, ne_eq,
      decide_eq_false_iff_not, not_le, Option.some.injEq]
    constructor
    · rintro (h | ⟨h0, hlt⟩)
      · exact Or.inl h
      · exact Or.inr ⟨e, rfl, h0, hlt⟩
    · rintro (h | ⟨e2, he, h0, hlt⟩)
      · exact Or.inl h
      · cases he
        exact Or.inr ⟨h0, hlt⟩

/-- C9 witness: a concrete invalid bundle obtained through the theorem. -/
theorem isTokenBundleValid_false_iff_witness :
    isTokenBundleValid 5 { token := "x", expiresAt := some 2 } = false :=
  (isTokenBundleValid_false_iff 5 { token := "x", expiresAt := some 2 }).mpr
    (Or.inr ⟨2, rfl, by decide, by decide⟩)

/-- C4 counterexample: when the result carries a falsy user value, the code
keeps the previous user (JavaScript truthiness test `res.user ? res.user :
_state.user`), while the claim's `result.user ?? previous user` would take
the supplied one; the two routines disagree on this input. -/
theorem processResult_falsy_user_cex :
    (processResult 0
        { token := "t", tokenExpiration := ExpInput.none, renew := Option.none
        , renewExpiration := ExpInput.none, user := some { truthy := false, val := 7 } }
        { initialized := true, auth := Option.none, renew := Option.none
        , user := some { truthy := true, val := 1 } }).user
      = some { truthy := true, val := 1 } ∧
    (claimProcessResult 0
        { token := "t", tokenExpiration := ExpInput.none, renew := Option.none
        , renewExpiration := ExpInput.none, user := some { truthy := false, val := 7 } }
        { initialized := true, auth := Option.none, renew := Option.none
        , user := some { truthy := true, val := 1 } }).user
      = some { truthy := false, val := 7 } ∧
    processResult 0
        { token := "t", tokenExpiration := ExpInput.none, renew := Option.none
        , renewExpiration := ExpInput.none, user := some { truthy := false, val := 7 } }
        { initialized := true, auth := Option.none, renew := Option.none
        , user := some { truthy := true, val := 1 } }
      ≠ claimProcessResult 0
        { token := "t", tokenExpiration := ExpInput.none, renew := Option.none
        , renewExpiration := ExpInput.none, user := some { truthy := false, val := 7 } }
        { initialized := true, auth := Option.none, renew := Option.none
        , user := some { truthy := true, val := 1 } } := by decide

/-- C4 amended: the committed state of the result-processing routine has
`auth = {token: result.token, expiresAt: coerceExpiration(result.tokenExpiration)}`,
`renew` rebuilt from the result exactly when `result.renew` is truthy and
otherwise the commit-time `renew` unchanged, `user` equal to `result.user`
exactly when it is truthy and otherwise the commit-time `user` unchanged
(a falsy supplied user is ignored), and `initialized = true`; the merge
reads the commit-time state `latest` (the functional `setState` updater's
argument), and `setAuth` is this routine applied directly with no
callback. -/
theorem processResult_amended (now : Nat) (res : AuthActionResult) (latest : AuthState) :
    (processResult now res latest).initialized = true ∧
    (processResult now res latest).auth =
      some { token := res.token, expiresAt := coerceExpiration now res.tokenExpiration } ∧
    (∀ r, res.renew = some r → optTokenTruthy res.renew = true →
      (processResult now res latest).renew =
        some { token := r, expiresAt := coerceExpiration now res.renewExpiration }) ∧
    (optTokenTruthy res.renew = false →
      (processResult now res latest).renew = latest.renew) ∧
    (optUserTruthy res.user = true → (processResult now res latest).user = res.user) ∧
    (optUserTruthy res.user = false → (processResult now res latest).user = latest.user) ∧
    setAuth now res latest = processResult now res latest := by
  refine ⟨rfl, rfl, ?_, ?_, ?_, ?_, rfl⟩
  · rintro r hr htr
    simp only [processResult, hr, optTokenTruthy] at htr ⊢
    simp only [Bool.not_eq_true', beq_eq_false_iff_ne, ne_eq] at htr
    simp [htr]
  · intro hf
    cases hr : res.renew with
    | none => simp [processResult, hr]
    | some r =>
        simp only [optTokenTruthy, hr, Bool.not_eq_false', beq_iff_eq] at hf
        simp [processResult, hr, hf]
  · intro ht
    cases hu : res.user with
    | none => simp [optUserTruthy, hu] at ht
    | some u =>
        simp only [optUserTruthy, hu] at ht
        simp [processResult, hu, ht]
  · intro hf
    cases hu : res.user with
    | none => simp [processResult, hu]
    | some u =>
        simp only [optUserTruthy, hu] at hf
        simp [processResult, hu, hf]

/-- C4 witness: the amended routine applied at a concrete truthy user. -/
theorem processResult_amended_witness :
    (processResult 3
        { token := "t", tokenExpiration := ExpInput.none, renew := Option.none
        , renewExpiration := ExpInput.none, user := some { truthy := true, val := 3 } }
        { initialized := false, auth := Option.none, renew := Option.none
        , user := Option.none }).user
      = some { truthy := true, val := 3 } :=
  (processResult_amended 3
      { token := "t", tokenExpiration := ExpInput.none, renew := Option.none
      , renewExpiration := ExpInput.none, user := some { truthy := true, val := 3 } }
      { initialized := false, auth := Option.none, renew := Option.none
      , user := Option.none }).2.2.2.2.1 (by decide)

/-- C6: `renewTokenAsync` rejects with the no-renew-handler configuration
error exactly when no `doRenew` callback is configured (and then leaves the
state unchanged), and when a configured `doRenew` rejects, the rejection
propagates to the caller and the state is left completely unchanged. -/
theorem renewTokenAsync_error_paths (cfg : AuthConfig) (o : Except String AuthActionResult)
    (now : Nat) (s : AuthState) :
    ((renewTokenAsync cfg o now s).2 = Except.error AuthError.noRenewHandler ↔
      cfg.doRenew = false) ∧
    (cfg.doRenew = false →
      renewTokenAsync cfg o now s = (s, Except.error AuthError.noRenewHandler)) ∧
    (∀ e, cfg.doRenew = true → o = Except.error e →
      renewTokenAsync cfg o now s = (s, Except.error (AuthError.callback e))) := by
  cases h : cfg.doRenew <;> cases o <;> simp [renewTokenAsync, h]

/-- C6 witness: with no renew callback configured, a concrete call rejects
with the configuration error and keeps the state. -/
theorem renewTokenAsync_error_paths_witness :
    renewTokenAsync
        { devToken := Option.none, devUser := Option.none, doSignIn := true
        , doRenew := false, doSignOut := false, renewOnMount := false }
        (Except.error "boom") 0 processExit
      = (processExit, Except.error AuthError.noRenewHandler) :=
  (renewTokenAsync_error_paths
      { devToken := Option.none, devUser := Option.none, doSignIn := true
      , doRenew := false, doSignOut := false, renewOnMount := false }
      (Except.error "boom") 0 processExit).2.1 rfl

/-- C7: with a truthy development token, `signInAsync` never consults the
`doSignIn` outcome and commits the synthetic result made of the development
token and development user with no expiration (the committed auth bundle has
no `expiresAt`, so it never auto-expires); without a development token it
commits the `doSignIn` outcome; and it rejects with the no-sign-in-handler
error if and only if neither a truthy development token nor a `doSignIn`
callback is configured. -/
theorem signInAsync_dev_and_handler (cfg : AuthConfig) (o : Except String AuthActionResult)
    (now : Nat) (s : AuthState) :
    (∀ t, cfg.devToken = some t → (t == "") = false →
      signInAsync cfg o now s =
        (processResult now
            { token := t, tokenExpiration := ExpInput.none, renew := Option.none
            , renewExpiration := ExpInput.none, user := cfg.devUser } s,
          Except.ok
            { token := t, tokenExpiration := ExpInput.none, renew := Option.none
            , renewExpiration := ExpInput.none, user := cfg.devUser }) ∧
      (signInAsync cfg o now s).1.auth = some { token := t, expiresAt := Option.none }) ∧
    (∀ o2, optTokenTruthy cfg.devToken = true →
      signInAsync cfg o now s = signInAsync cfg o2 now s) ∧
    (∀ res, optTokenTruthy cfg.devToken = false → cfg.doSignIn = true →
      o = Except.ok res →
      signInAsync cfg o now s = (processResult now res s, Except.ok res)) ∧
    ((signInAsync cfg o now s).2 = Except.error AuthError.noSignInHandler ↔
      optTokenTruthy cfg.devToken = false ∧ cfg.doSignIn = false) := by
  refine ⟨?_, ?_, ?_, ?_⟩
  · rintro t ht hne
    have hd : devResult cfg =
        some { token := t, tokenExpiration := ExpInput.none, renew := Option.none
             , renewExpiration := ExpInput.none, user := cfg.devUser } := by
      simp [devResult, ht, hne]
    refine ⟨by simp [signInAsync, hd], ?_⟩
    simp [signInAsync, hd, processResult, coerceExpiration]
  · intro o2 htr
    have hd : ¬ devResult cfg = Option.none := by
      intro hcon
      rw [(devResult_eq_none_iff cfg).mp hcon] at htr
      exact Bool.false_ne_true htr
    cases hdev : devResult cfg with
    | none => exact absurd hdev hd
    | some r => simp [signInAsync, hdev]
  · intro res hfalse hsi hok
    have hd : devResult cfg = Option.none := (devResult_eq_none_iff cfg).mpr hfalse
    simp [signInAsync, hd, hsi, hok]
  · cases hdev : devResult cfg with
    | some r =>
        have : optTokenTruthy cfg.devToken = true := by
          cases htr : optTokenTruthy cfg.devToken with
          | true => rfl
          | false =>
              rw [(devResult_eq_none_iff cfg).mpr htr] at hdev
              exact Option.noConfusion hdev
        simp [signInAsync, hdev, this]
    | none =>
        have hfalse : optTokenTruthy cfg.devToken = false :=
          (devResult_eq_none_iff cfg).mp hdev
        cases hsi : cfg.doSignIn <;> cases o <;>
          simp [signInAsync, hdev, hsi, hfalse]

/-- C7 witness: a concrete provider with neither a development token nor a
sign-in callback rejects with the no-sign-in-handler error. -/
theorem signInAsync_dev_and_handler_witness :
    (signInAsync
        { devToken := Option.none, devUser := Option.none, doSignIn := false
        , doRenew := false, doSignOut := false, renewOnMount := false }
        (Except.error "x") 0 processExit).2
      = Except.error AuthError.noSignInHandler :=
  (signInAsync_dev_and_handler
      { devToken := Option.none, devUser := Option.none, doSignIn := false
      , doRenew := false, doSignOut := false, renewOnMount := false }
      (Except.error "x") 0 processExit).2.2.2.mpr ⟨rfl, rfl⟩

/-- C10: the authenticated status exposed by `useAuth`,
`useIsAuthenticated`, and the `AuthGuard` rendering condition is determined
solely by the presence of the auth bundle: a state holding an expired (hence
invalid) auth bundle still reports `isAuthenticated = true`, the guard with
its defaults still renders the authenticated branch, and any two states
agreeing on presence of the bundle agree on the status. -/
theorem isAuthenticated_presence_only (s : AuthState) (b : TokenBundle) (now : Nat)
    (hb : s.auth = some b) (_hinv : isTokenBundleValid now b = false) :
    isAuthenticated s = true ∧ authGuardShows true false s = true ∧
      ∀ s2 : AuthState, s2.auth.isSome = s.auth.isSome →
        isAuthenticated s2 = isAuthenticated s := by
  refine ⟨by simp [isAuthenticated, hb], by simp [authGuardShows, isAuthenticated, hb], ?_⟩
  intro s2 h2
  simp [isAuthenticated, h2]

/-- C10 witness: a concrete state whose auth bundle expired at instant 1,
observed at instant 5, still counts as authenticated. -/
theorem isAuthenticated_presence_only_witness :
    isAuthenticated
        { initialized := true, auth := some { token := "t", expiresAt := some 1 }
        , renew := Option.none, user := Option.none } = true ∧
      authGuardShows true false
        { initialized := true, auth := some { token := "t", expiresAt := some 1 }
        , renew := Option.none, user := Option.none } = true ∧
      ∀ s2 : AuthState, s2.auth.isSome =
          ({ initialized := true, auth := some { token := "t", expiresAt := some 1 }
           , renew := Option.none, user := Option.none } : AuthState).auth.isSome →
        isAuthenticated s2 = isAuthenticated
          { initialized := true, auth := some { token := "t", expiresAt := some 1 }
          , renew := Option.none, user := Option.none } :=
  isAuthenticated_presence_only
    { initialized := true, auth := some { token := "t", expiresAt := some 1 }
    , renew := Option.none, user := Option.none }
    { token := "t", expiresAt := some 1 } 5 rfl (by decide)

theorem sharedRunMany_inflight (k : Nat) (s : SharedPromiseState) (p : Nat)
    (h : s.inflight = some p) :
    sharedRunMany k s = (s, List.replicate k p) := by
  induction k with
  | zero => simp [sharedRunMany]
  | succ k ih => simp [sharedRunMany, sharedRun, h, ih, List.replicate]

/-- C2: while an invocation is in flight, every further caller receives the
very same promise and the underlying function is not invoked again: after a
first call from an idle state, `k` further calls all return the first call's
promise, leave the executor state unchanged, and the underlying function has
been invoked exactly once in total. -/
theorem single_flight_dedup (s : SharedPromiseState) (k : Nat)
    (h : s.inflight = Option.none) :
    (sharedRunMany k (sharedRun s).1).2 = List.replicate k (sharedRun s).2 ∧
    (sharedRunMany k (sharedRun s).1).1 = (sharedRun s).1 ∧
    (sharedRun s).1.invocations = s.invocations + 1 ∧
    (sharedRun s).1.inflight = some (sharedRun s).2 := by
  have h1 : sharedRun s =
      ({ inflight := some s.nextId, nextId := s.nextId + 1
       , invocations := s.invocations + 1 }, s.nextId) := by
    simp [sharedRun, h]
  rw [h1]
  refine ⟨?_, ?_, rfl, rfl⟩
  · rw [sharedRunMany_inflight k _ s.nextId rfl]
  · rw [sharedRunMany_inflight k _ s.nextId rfl]

/-- C2 witness: from an idle executor, one call followed by three concurrent
calls performs one invocation and hands out the same promise four times. -/
theorem single_flight_dedup_witness :
    (sharedRunMany 3 (sharedRun { inflight := Option.none, nextId := 0, invocations := 0 }).1).2
        = List.replicate 3 (sharedRun { inflight := Option.none, nextId := 0, invocations := 0 }).2 ∧
      (sharedRunMany 3 (sharedRun { inflight := Option.none, nextId := 0, invocations := 0 }).1).1
        = (sharedRun { inflight := Option.none, nextId := 0, invocations := 0 }).1 ∧
      (sharedRun { inflight := Option.none, nextId := 0, invocations := 0 }).1.invocations
        = ({ inflight := Option.none, nextId := 0, invocations := 0 } : SharedPromiseState).invocations + 1 ∧
      (sharedRun { inflight := Option.none, nextId := 0, invocations := 0 }).1.inflight
        = some (sharedRun { inflight := Option.none, nextId := 0, invocations := 0 }).2 :=
  single_flight_dedup { inflight := Option.none, nextId := 0, invocations := 0 } 3 rfl

theorem stateTokenTruthy_eq_tokenOf (s : AuthState) :
    stateTokenTruthy s = optTokenTruthy (tokenOf s) := by
  rcases s with ⟨i, _ | b, r, u⟩ <;> rfl

theorem rendersNotify_no_callback (states : List AuthState) :
    ∀ (m : Bool) (p : Option (Option Token)), rendersNotify false m p states = [] := by
  induction states with
  | nil => intro m p; rfl
  | cons s rest ih =>
      intro m p
      cases p with
      | none => simp [rendersNotify, ih]
      | some q =>
          by_cases h : tokenOf s = q <;> simp [rendersNotify, h, ih]

theorem rendersNotify_mounted (states : List AuthState) :
    ∀ p : Option Token, rendersNotify true true (some p) states =
      changesOnly p (states.map tokenOf) := by
  induction states with
  | nil => intro p; rfl
  | cons s rest ih =>
      intro p
      by_cases h : tokenOf s = p
      · simp [rendersNotify, changesOnly, h, ih p]
      · simp [rendersNotify, changesOnly, h, ih (tokenOf s)]

theorem rendersNotify_unmounted (states : List AuthState) :
    ∀ p : Option Token, optTokenTruthy p = false →
      rendersNotify true false (some p) states =
        dupFirstTruthy (changesOnly p (states.map tokenOf)) := by
  induction states with
  | nil => intro p _; rfl
  | cons s rest ih =>
      intro p hp
      cases ht : stateTokenTruthy s with
      | false =>
          have htok : optTokenTruthy (tokenOf s) = false := by
            rw [← stateTokenTruthy_eq_tokenOf]; exact ht
          by_cases h : tokenOf s = p
          · simp [rendersNotify, changesOnly, h, ht, ih p hp]
          · simp [rendersNotify, changesOnly, h, ht, ih (tokenOf s) htok,
              dupFirstTruthy, htok]
      | true =>
          have htok : optTokenTruthy (tokenOf s) = true := by
            rw [← stateTokenTruthy_eq_tokenOf]; exact ht
          have hne : ¬ tokenOf s = p := by
            intro hh; rw [hh, hp] at htok; exact Bool.false_ne_true htok
          simp [rendersNotify, changesOnly, hne, ht, dupFirstTruthy, htok,
            rendersNotify_mounted rest (tokenOf s)]

/-- C5 counterexample: a provider mounted on an already-authenticated loaded
state invokes `onTokenChange` twice with the same token — once from the
synchronous render-body block and once from the initial run of the
`useEffect` — while the claim ("once synchronously, thereafter exactly once
per change of the token string, never redundantly") predicts a single
invocation. -/
theorem notifSeq_mount_duplicate_cex :
    notifSeq true
        [{ initialized := true, auth := some { token := "t", expiresAt := Option.none }
         , renew := Option.none, user := Option.none }]
      = [some "t", some "t"] ∧
    claimNotifSeq true
        [{ initialized := true, auth := some { token := "t", expiresAt := Option.none }
         , renew := Option.none, user := Option.none }]
      = [some "t"] ∧
    notifSeq true
        [{ initialized := true, auth := some { token := "t", expiresAt := Option.none }
         , renew := Option.none, user := Option.none }]
      ≠ claimNotifSeq true
        [{ initialized := true, auth := some { token := "t", expiresAt := Option.none }
         , renew := Option.none, user := Option.none }] := by decide

/-- C5 amended: across any sequence of rendered states, the `onTokenChange`
invocations are exactly one call per entry of the consecutive-change
sequence of the resolved token (whose head is the loaded token, covering
load-from-storage, and whose later entries cover sign-in, sign-out, renewal
and scheduled expiration), except that the first truthy token in that
sequence is delivered twice in a row: the synchronous render-body call fires
at the first render whose token is truthy — guaranteeing the token is
available before the first authenticated render is observed — immediately
followed by the effect call for the same token.  In particular changes of
state fields other than `auth.token` contribute no entry, and without a
callback nothing is invoked. -/
theorem notifSeq_amended (hasCb : Bool) (s0 : AuthState) (rest : List AuthState) :
    notifSeq hasCb (s0 :: rest) =
      if hasCb then
        dupFirstTruthy (tokenOf s0 :: changesOnly (tokenOf s0) (rest.map tokenOf))
      else [] := by
  cases hasCb with
  | false => simp [notifSeq, rendersNotify_no_callback]
  | true =>
      cases ht : stateTokenTruthy s0 with
      | false =>
          have htok : optTokenTruthy (tokenOf s0) = false := by
            rw [← stateTokenTruthy_eq_tokenOf]; exact ht
          simp [notifSeq, rendersNotify, ht, dupFirstTruthy, htok,
            rendersNotify_unmounted rest (tokenOf s0) htok]
      | true =>
          have htok : optTokenTruthy (tokenOf s0) = true := by
            rw [← stateTokenTruthy_eq_tokenOf]; exact ht
          simp [notifSeq, rendersNotify, ht, dupFirstTruthy, htok,
            rendersNotify_mounted rest (tokenOf s0)]

theorem reconcileCommit_eq (isFirst authInv renewInv : Bool) (s : AuthState)
    (hReach : isFirst = true ∨ s.initialized = true) :
    reconcileCommit isFirst authInv renewInv s =
      { initialized := true
      , auth := if authInv then Option.none else s.auth
      , renew := if renewInv then Option.none else s.renew
      , user := s.user } := by
  cases hif : isFirst with
  | true => simp [reconcileCommit]
  | false =>
      have hinit : s.initialized = true := by
        cases hReach with
        | inl hh => rw [hif] at hh; exact absurd hh Bool.false_ne_true
        | inr hh => exact hh
      cases ha : authInv with
      | true => simp [reconcileCommit]
      | false =>
          cases hrv : renewInv with
          | true => simp [reconcileCommit]
          | false =>
              rcases s with ⟨i, a, r, u⟩
              simp only at hinit
              simp [reconcileCommit, hinit]

/-- C3: one reconciliation pass calls `renewTokenAsync(undefined)` exactly
when it is the first pass with `renewOnMount` configured, or the auth bundle
is absent, or present but invalid; when that attempt succeeds the pass ends
with the renewal's committed state, and in every other case (failed attempt
or no attempt) the pass leaves a state with the auth bundle dropped if
invalid, the renew bundle dropped if invalid, and `initialized = true`.  The
hypothesis records reachability: a non-first pass only ever runs on a state
some earlier commit produced, and every commit sets `initialized = true`. -/
theorem reconcilePass_spec (cfg : AuthConfig) (o : Except String AuthActionResult)
    (isFirst : Bool) (now : Nat) (s : AuthState)
    (hReach : isFirst = true ∨ s.initialized = true) :
    ((reconcilePass cfg o isFirst now s).renewAttempted =
        ((isFirst && cfg.renewOnMount) || s.auth.isNone || reconcileAuthInv now s)) ∧
    (∀ res, cfg.doRenew = true → o = Except.ok res →
      (reconcilePass cfg o isFirst now s).renewAttempted = true →
      (reconcilePass cfg o isFirst now s).state = processResult now res s) ∧
    (((reconcilePass cfg o isFirst now s).renewAttempted = false ∨ cfg.doRenew = false ∨
        (∃ e, o = Except.error e)) →
      (reconcilePass cfg o isFirst now s).state =
        { initialized := true
        , auth := if reconcileAuthInv now s then Option.none else s.auth
        , renew := if reconcileRenewInv now s then Option.none else s.renew
        , user := s.user }) := by
  have hcommit := reconcileCommit_eq isFirst (reconcileAuthInv now s)
    (reconcileRenewInv now s) s hReach
  cases hc : ((isFirst && cfg.renewOnMount) || s.auth.isNone || reconcileAuthInv now s) with
  | false =>
      have hpass : reconcilePass cfg o isFirst now s =
          { state := reconcileCommit isFirst (reconcileAuthInv now s)
              (reconcileRenewInv now s) s
          , isFirstAfter := false, renewAttempted := false } := by
        simp [reconcilePass, hc]
      rw [hpass]
      refine ⟨rfl, ?_, ?_⟩
      · intro res _ _ hat
        exact absurd hat (by simp)
      · intro _
        exact hcommit
  | true =>
      cases hr : cfg.doRenew with
      | false =>
          have hpass : reconcilePass cfg o isFirst now s =
              { state := reconcileCommit isFirst (reconcileAuthInv now s)
                  (reconcileRenewInv now s) s
              , isFirstAfter := false, renewAttempted := true } := by
            simp [reconcilePass, hc, renewTokenAsync, hr]
          rw [hpass]
          refine ⟨rfl, ?_, fun _ => hcommit⟩
          intro res hdr _ _
          exact absurd hdr (by simp)
      | true =>
          cases o with
          | ok res =>
              have hpass : reconcilePass cfg (Except.ok res) isFirst now s =
                  { state := processResult now res s
                  , isFirstAfter := isFirst, renewAttempted := true } := by
                simp [reconcilePass, hc, renewTokenAsync, hr]
              rw [hpass]
              refine ⟨rfl, ?_, ?_⟩
              · rintro res2 _ hres _
                cases hres
                rfl
              · rintro (hat | hdr | ⟨e, he⟩)
                · exact absurd hat (by simp)
                · exact absurd hdr (by simp)
                · exact absurd he (by simp)
          | error e =>
              have hpass : reconcilePass cfg (Except.error e) isFirst now s =
                  { state := reconcileCommit isFirst (reconcileAuthInv now s)
                      (reconcileRenewInv now s) s
                  , isFirstAfter := false, renewAttempted := true } := by
                simp [reconcilePass, hc, renewTokenAsync, hr]
              rw [hpass]
              refine ⟨rfl, ?_, fun _ => hcommit⟩
              rintro res2 _ hres _
              exact absurd hres (by simp)

/-- C3 witness: a first pass on an empty uninitialized state with no renew
callback attempts the renewal, fails, and commits the initialized empty
state. -/
theorem reconcilePass_spec_witness :
    (reconcilePass
        { devToken := Option.none, devUser := Option.none, doSignIn := true
        , doRenew := false, doSignOut := false, renewOnMount := false }
        (Except.error "e") true 0
        { initialized := false, auth := Option.none, renew := Option.none
        , user := Option.none }).state
      = { initialized := true, auth := Option.none, renew := Option.none
        , user := Option.none } := by
  have h := (reconcilePass_spec
      { devToken := Option.none, devUser := Option.none, doSignIn := true
      , doRenew := false, doSignOut := false, renewOnMount := false }
      (Except.error "e") true 0
      { initialized := false, auth := Option.none, renew := Option.none
      , user := Option.none } (Or.inl rfl)).2.2 (Or.inr (Or.inl rfl))
  simpa using h

theorem renewTokenAsync_keeps_initialized (cfg : AuthConfig)
    (o : Except String AuthActionResult) (now : Nat) (s : AuthState)
    (h : s.initialized = true) :
    (renewTokenAsync cfg o now s).1.initialized = true := by
  cases hr : cfg.doRenew <;> cases o <;>
    simp [renewTokenAsync, hr, processResult, h]

theorem signInAsync_keeps_initialized (cfg : AuthConfig)
    (o : Except String AuthActionResult) (now : Nat) (s : AuthState)
    (h : s.initialized = true) :
    (signInAsync cfg o now s).1.initialized = true := by
  cases hd : devResult cfg with
  | some r => simp [signInAsync, hd, processResult]
  | none =>
      cases hsi : cfg.doSignIn <;> cases o <;>
        simp [signInAsync, hd, hsi, processResult, h]

theorem reconcilePass_keeps_initialized (cfg : AuthConfig)
    (o : Except String AuthActionResult) (isFirst : Bool) (now : Nat) (s : AuthState)
    (h : isFirst = true ∨ s.initialized = true) :
    (reconcilePass cfg o isFirst now s).state.initialized = true := by
  have hcommit : (reconcileCommit isFirst (reconcileAuthInv now s)
      (reconcileRenewInv now s) s).initialized = true := by
    rw [reconcileCommit_eq isFirst (reconcileAuthInv now s) (reconcileRenewInv now s) s h]
  cases hc : ((isFirst && cfg.renewOnMount) || s.auth.isNone || reconcileAuthInv now s) with
  | false => simpa [reconcilePass, hc] using hcommit
  | true =>
      cases hr : cfg.doRenew with
      | false => simpa [reconcilePass, hc, renewTokenAsync, hr] using hcommit
      | true =>
          cases o with
          | ok res => simp [reconcilePass, hc, renewTokenAsync, hr, processResult]
          | error e => simpa [reconcilePass, hc, renewTokenAsync, hr] using hcommit

theorem applyOp_keeps_initialized (cfg : AuthConfig) (s : AuthState) (op : Op)
    (h : s.initialized = true) : (applyOp cfg s op).initialized = true := by
  cases op with
  | signIn o now => exact signInAsync_keeps_initialized cfg o now s h
  | renew o now => exact renewTokenAsync_keeps_initialized cfg o now s h
  | signOut o =>
      cases hso : cfg.doSignOut <;> cases o <;>
        simp [applyOp, signOutAsync, processExit, hso]
  | setAuthOp now res => simp [applyOp, setAuth, processResult]
  | reconcile o isFirst now =>
      exact reconcilePass_keeps_initialized cfg o isFirst now s (Or.inr h)
  | authTimer o now =>
      cases hr : cfg.doRenew <;> cases o <;>
        simp [applyOp, authExpireFire, renewTokenAsync, hr, processResult, h]
  | renewTimer => simpa [applyOp, renewExpireFire] using h

theorem applyOps_keep_initialized (cfg : AuthConfig) (ops : List Op) :
    ∀ s : AuthState, s.initialized = true → (applyOps cfg s ops).initialized = true := by
  induction ops with
  | nil => intro s h; exact h
  | cons op rest ih =>
      intro s h
      exact ih (applyOp cfg s op) (applyOp_keeps_initialized cfg s op h)

/-- C8: starting from any loaded state, the first reconciliation pass leaves
`initialized = true`, and after it no sequence of operations — sign-in,
renewal, sign-out, `setAuth`, further reconciliation passes, or either
expiration timer, with any callback outcomes and clock readings — ever
produces a state with `initialized = false` again. -/
theorem initialized_never_reverts (cfg : AuthConfig) (s0 : AuthState)
    (o : Except String AuthActionResult) (now : Nat) (ops : List Op) :
    (applyOps cfg (reconcilePass cfg o true now s0).state ops).initialized = true :=
  applyOps_keep_initialized cfg ops (reconcilePass cfg o true now s0).state
    (reconcilePass_keeps_initialized cfg o true now s0 (Or.inl rfl))

end ReactitAuth
